import Mathlib

/-!
Verification of the MoltenVK render-pass core (`MVKRenderPass.mm`).

This file shallow-embeds the code that the claims refer to: the view-mask
partitioning used for multiview rendering (`getNextViewMaskGroup` and the
per-Metal-pass queries on `MVKRenderSubpass`), the attachment lifecycle
computation of `MVKRenderPassAttachment::validateFormat`, and the
load/store/clear decision logic.

Machine integers (`uint32_t`) are modelled as `Nat`.  The one place where the
C code relies on unsigned wrap-around — the post-decrements in the unrolled
branch of `getFirstViewIndexInMetalPass` — is modelled explicitly with
`kMVKUint32Max`.  `ffs(viewMask) - 1` is modelled by `ctz`; every use in the
source guards `viewMask != 0`, and `ctz 0 = 0` is an arbitrary value standing
for the undefined `ffs(0) - 1 = -1` case that the source never reaches.
The non-release `assert(passIdx < getMultiviewMetalPassCount())` statements
are no-ops in release builds and are not modelled; they sit after the
`viewMask == 0` early returns.
-/

/-- The count-trailing-zeros of a positive number: the index of the lowest set
bit, i.e. `ffs(m) - 1` of the source for `m ≠ 0`. -/
def ctz (m : Nat) : Nat :=
  if m = 0 then 0
  else if m % 2 = 1 then 0
  else ctz (m / 2) + 1
termination_by m
decreasing_by exact Nat.div_lt_self (Nat.pos_of_ne_zero (by assumption)) (by decide)

/-- The population count of `m` (`__builtin_popcount` on values below `2^32`). -/
def popcount (m : Nat) : Nat :=
  if m = 0 then 0
  else m % 2 + popcount (m / 2)
termination_by m
decreasing_by exact Nat.div_lt_self (Nat.pos_of_ne_zero (by assumption)) (by decide)

/-- The `while (viewMask & (1 << end))` loop of `getNextViewMaskGroup`:
starting at bit `e`, clear the contiguous run of set bits of `viewMask`,
accumulating them into `groupMask`.  `viewMask &= ~(1 << end)` is written as
subtraction of `2^e`, which is the same operation because the loop only runs
while bit `e` is set.  Returns the triple (remaining mask, one past the end of
the clump, accumulated group mask). -/
def clumpLoop (viewMask e groupMask : Nat) : Nat × Nat × Nat :=
  if viewMask.testBit e then
    clumpLoop (viewMask - 2 ^ e) (e + 1) (groupMask ||| 2 ^ e)
  else
    (viewMask, e, groupMask)
termination_by viewMask
decreasing_by
  exact Nat.sub_lt (Nat.lt_of_lt_of_le (Nat.pos_pow_of_pos _ (by decide))
    (Nat.testBit_implies_ge (by assumption))) (Nat.pos_pow_of_pos _ (by decide))

/-- The result of `getNextViewMaskGroup`: the mask with the lowest clump of
set bits cleared (the return value), and the out-parameters `*startView`,
`*viewCount` and `*groupMask`. -/
structure ViewMaskGroup where
  remainder : Nat
  startView : Nat
  viewCount : Nat
  groupMask : Nat
deriving Repr, DecidableEq

/-- `getNextViewMaskGroup` of `MVKRenderPass.mm`: extract the first view, the
number of views and the rendered portion of the mask from the lowest clump of
set bits in a view mask, clearing those bits in the returned remainder. -/
def getNextViewMaskGroup (viewMask : Nat) : ViewMaskGroup :=
  let pos := ctz viewMask
  let r := clumpLoop viewMask pos 0
  ⟨r.1, pos, r.2.1 - pos, r.2.2⟩

theorem clumpLoop_fst_le (viewMask e groupMask : Nat) :
    (clumpLoop viewMask e groupMask).1 ≤ viewMask := by
  induction viewMask using Nat.strong_induction_on generalizing e groupMask with
  | _ m ih =>
    rw [clumpLoop]
    split
    · next h =>
      have hpow : 2 ^ e ≤ m := Nat.testBit_implies_ge h
      have hlt : m - 2 ^ e < m :=
        Nat.sub_lt (Nat.lt_of_lt_of_le (Nat.pos_pow_of_pos _ (by decide)) hpow)
          (Nat.pos_pow_of_pos _ (by decide))
      exact Nat.le_trans (ih _ hlt _ _) (Nat.le_of_lt hlt)
    · exact Nat.le_refl m

theorem ctz_testBit {m : Nat} (h : m ≠ 0) : m.testBit (ctz m) = true := by
  induction m using Nat.strong_induction_on with
  | _ m ih =>
    rw [ctz]
    simp only [h, if_false]
    split
    · next h2 => simpa using h2
    · next h2 =>
      have hm2 : m / 2 ≠ 0 := by omega
      rw [Nat.testBit_add_one]
      exact ih (m / 2) (Nat.div_lt_self (Nat.pos_of_ne_zero h) (by decide)) hm2

theorem getNextViewMaskGroup_remainder_lt {m : Nat} (h : m ≠ 0) :
    (getNextViewMaskGroup m).remainder < m := by
  have hbit : m.testBit (ctz m) = true := ctz_testBit h
  have hpow : 2 ^ ctz m ≤ m := Nat.testBit_implies_ge hbit
  have hpos : 0 < 2 ^ ctz m := Nat.pos_pow_of_pos _ (by decide)
  show (clumpLoop m (ctz m) 0).1 < m
  rw [clumpLoop, if_pos hbit]
  exact Nat.lt_of_le_of_lt (clumpLoop_fst_le _ _ _)
    (Nat.sub_lt (Nat.lt_of_lt_of_le hpos hpow) hpos)

/-- The `for (count = 0; mask != 0; ++count)` loop of
`getMultiviewMetalPassCount` (instancing branch): the number of clumps. -/
def countClumps (mask : Nat) : Nat :=
  if h : mask = 0 then 0
  else countClumps (getNextViewMaskGroup mask).remainder + 1
termination_by mask
decreasing_by exact getNextViewMaskGroup_remainder_lt h

/-- The `for (uint32_t i = 0; i <= passIdx; ++i)` loop of
`getViewMaskGroupForMetalPass` (instancing branch): `*groupMask` is reset and
refilled by every call, so the result is the group mask of the last call. -/
def groupLoop (mask : Nat) : Nat → Nat
  | 0 => (getNextViewMaskGroup mask).groupMask
  | k + 1 => groupLoop (getNextViewMaskGroup mask).remainder k

/-- The instancing-branch loop of `getFirstViewIndexInMetalPass`: `*startView`
of the last of `passIdx+1` calls. -/
def startViewLoop (mask : Nat) : Nat → Nat
  | 0 => (getNextViewMaskGroup mask).startView
  | k + 1 => startViewLoop (getNextViewMaskGroup mask).remainder k

/-- The instancing-branch loop of `getViewCountInMetalPass`: `*viewCount` of
the last of `passIdx+1` calls. -/
def viewCountLoop (mask : Nat) : Nat → Nat
  | 0 => (getNextViewMaskGroup mask).viewCount
  | k + 1 => viewCountLoop (getNextViewMaskGroup mask).remainder k

/-- The instancing-branch loop of `getViewCountUpToMetalPass`: the sum of
`*viewCount` over `passIdx+1` calls. -/
def upToLoop (mask : Nat) : Nat → Nat
  | 0 => (getNextViewMaskGroup mask).viewCount
  | k + 1 =>
    (getNextViewMaskGroup mask).viewCount + upToLoop (getNextViewMaskGroup mask).remainder k

/-- The largest `uint32_t` value, produced when the source post-decrements an
unsigned zero. -/
def kMVKUint32Max : Nat := 4294967295

/-- The inner `while (passIdx-- > 0 && viewCount-- > 0) startView++;` loop of
the unrolled branch of `getFirstViewIndexInMetalPass`, with `uint32_t`
wrap-around on the post-decrements modelled exactly: the test that fails still
decrements its operand, and decrementing 0 wraps to `kMVKUint32Max`.
Returns (passIdx, viewCount, startView) after the loop. -/
def skipLoop : Nat → Nat → Nat → Nat × Nat × Nat
  | 0, vc, sv => (kMVKUint32Max, vc, sv)
  | p + 1, 0, sv => (p, kMVKUint32Max, sv)
  | p + 1, vc + 1, sv => skipLoop p vc (sv + 1)

/-- The outer `for (uint32_t i = 0; mask != 0; ++i)` loop of the unrolled
branch of `getFirstViewIndexInMetalPass`: each iteration overwrites
`startView`/`viewCount` from the next clump, then runs the inner skip loop;
`passIdx` persists (with wrap-around) across iterations. -/
def firstViewLoop (mask passIdx startView : Nat) : Nat :=
  if h : mask = 0 then startView
  else
    match skipLoop passIdx (getNextViewMaskGroup mask).viewCount
        (getNextViewMaskGroup mask).startView with
    | (p', _, sv') => firstViewLoop (getNextViewMaskGroup mask).remainder p' sv'
termination_by mask
decreasing_by exact getNextViewMaskGroup_remainder_lt h

/-- `MVKRenderSubpass::getMultiviewMetalPassCount`.  `inst` is
`canUseInstancingForMultiview()` of the physical device. -/
def getMultiviewMetalPassCount (inst : Bool) (viewMask : Nat) : Nat :=
  if viewMask = 0 then 0
  else if !inst then popcount viewMask
  else countClumps viewMask

/-- `MVKRenderSubpass::getFirstViewIndexInMetalPass`. -/
def getFirstViewIndexInMetalPass (inst : Bool) (viewMask passIdx : Nat) : Nat :=
  if viewMask = 0 then 0
  else if !inst then firstViewLoop viewMask passIdx 0
  else startViewLoop viewMask passIdx

/-- `MVKRenderSubpass::getViewMaskGroupForMetalPass`: the portion of the view
mask to be rendered in the given Metal pass. -/
def getViewMaskGroupForMetalPass (inst : Bool) (viewMask passIdx : Nat) : Nat :=
  if viewMask = 0 then 0
  else if !inst then 1 <<< getFirstViewIndexInMetalPass inst viewMask passIdx
  else groupLoop viewMask passIdx

/-- `MVKRenderSubpass::getViewCountInMetalPass`. -/
def getViewCountInMetalPass (inst : Bool) (viewMask passIdx : Nat) : Nat :=
  if viewMask = 0 then 0
  else if !inst then 1
  else viewCountLoop viewMask passIdx

/-- `MVKRenderSubpass::getViewCountUpToMetalPass`. -/
def getViewCountUpToMetalPass (inst : Bool) (viewMask passIdx : Nat) : Nat :=
  if viewMask = 0 then 0
  else if !inst then passIdx + 1
  else upToLoop viewMask passIdx

/-- The `VK_ATTACHMENT_UNUSED` sentinel (`~0U`). -/
def VK_ATTACHMENT_UNUSED : Nat := 4294967295

/-- The `VK_FORMAT_UNDEFINED` value; formats are carried as raw `VkFormat`
numbers because the embedded code only compares them against this sentinel. -/
def VK_FORMAT_UNDEFINED : Nat := 0

/-- `kMVKUndefinedLargeUInt32`, the "no subpass uses this attachment yet"
initial value of `_firstUseSubpassIdx`. -/
def kMVKUndefinedLargeUInt32 : Nat := 4294967295

/-- The `VkAttachmentLoadOp` enum. -/
inductive VkAttachmentLoadOp
  | Load
  | Clear
  | DontCare
deriving Repr, DecidableEq, Inhabited

/-- The `VkAttachmentStoreOp` enum (the spec's data model lists
Store/DontCare). -/
inductive VkAttachmentStoreOp
  | Store
  | DontCare
deriving Repr, DecidableEq, Inhabited

/-- The `MTLLoadAction` enum. -/
inductive MTLLoadAction
  | DontCare
  | Load
  | Clear
deriving Repr, DecidableEq, Inhabited

/-- The `MTLStoreAction` enum (the values the embedded code uses). -/
inductive MTLStoreAction
  | DontCare
  | Store
  | MultisampleResolve
  | StoreAndMultisampleResolve
  | Unknown
deriving Repr, DecidableEq, Inhabited

/-- A `VkAttachmentReference`: only the attachment index is consulted by the
embedded code (layout and aspect mask are carried through unchanged). -/
structure VkAttachmentReference where
  attachment : Nat
deriving Repr, DecidableEq, Inhabited

/-- The state of an `MVKRenderSubpass` that the embedded code reads. -/
structure MVKRenderSubpass where
  subpassIndex : Nat
  viewMask : Nat
  inputAttachments : List VkAttachmentReference
  colorAttachments : List VkAttachmentReference
  resolveAttachments : List VkAttachmentReference
  depthStencilAttachment : VkAttachmentReference
  depthStencilResolveAttachment : VkAttachmentReference
deriving Repr, DecidableEq, Inhabited

/-- Modelled from the spec: `MVKRenderSubpass::isMultiview` is declared in the
header `MVKRenderPass.h`, which is not among the embedded sources.  Per the
spec's data model a view mask of 0 means "not multiview", matching the
`if (!_viewMask)` guards of the embedded source. -/
def MVKRenderSubpass.isMultiview (sp : MVKRenderSubpass) : Bool := sp.viewMask ≠ 0

/-- The immutable per-attachment state of an `MVKRenderPassAttachment`: the
`VkAttachmentDescription` fields the decision logic reads, plus the cached
lifecycle computed by `validateFormat`. -/
structure MVKRenderPassAttachment where
  format : Nat
  loadOp : VkAttachmentLoadOp
  storeOp : VkAttachmentStoreOp
  stencilLoadOp : VkAttachmentLoadOp
  stencilStoreOp : VkAttachmentStoreOp
  firstUseSubpassIdx : Nat
  lastUseSubpassIdx : Nat
  firstUseViewMasks : List Nat
  lastUseViewMasks : List Nat
deriving Repr, DecidableEq, Inhabited

/-- `MVKRenderPassAttachment::getFormat`. -/
def MVKRenderPassAttachment.getFormat (att : MVKRenderPassAttachment) : Nat := att.format

/-- The `MVKPhysicalDeviceMetalFeatures` flags the embedded code reads. -/
structure MVKMetalFeatures where
  combinedStoreResolveAction : Bool
  deferredStoreActions : Bool
deriving Repr, DecidableEq, Inhabited

/-- `MVKRenderSubpass::getColorAttachmentFormat`.  `attachments` is the owning
render pass's `_attachments` list; the in-range read
`_attachments[rpAttIdx]` is modelled with `getD`. -/
def getColorAttachmentFormat (attachments : List MVKRenderPassAttachment)
    (sp : MVKRenderSubpass) (colorAttIdx : Nat) : Nat :=
  if colorAttIdx < sp.colorAttachments.length then
    let rpAttIdx := (sp.colorAttachments.getD colorAttIdx default).attachment
    if rpAttIdx = VK_ATTACHMENT_UNUSED then VK_FORMAT_UNDEFINED
    else (attachments.getD rpAttIdx default).getFormat
  else VK_FORMAT_UNDEFINED

/-- `MVKRenderSubpass::isColorAttachmentUsed`. -/
def isColorAttachmentUsed (sp : MVKRenderSubpass) (colorAttIdx : Nat) : Bool :=
  if colorAttIdx ≥ sp.colorAttachments.length then false
  else (sp.colorAttachments.getD colorAttIdx default).attachment ≠ VK_ATTACHMENT_UNUSED

/-- `MVKRenderSubpass::isColorAttachmentAlsoInputAttachment`. -/
def isColorAttachmentAlsoInputAttachment (sp : MVKRenderSubpass) (colorAttIdx : Nat) : Bool :=
  if colorAttIdx ≥ sp.colorAttachments.length then false
  else
    let rspAttIdx := (sp.colorAttachments.getD colorAttIdx default).attachment
    if rspAttIdx = VK_ATTACHMENT_UNUSED then false
    else sp.inputAttachments.any (fun inAtt => inAtt.attachment == rspAttIdx)

/-- Modelled from the spec: the `MVKMTLFmtCaps` capability bits live in an
external header.  The claims depend only on which flags are set, so distinct
bits are chosen here. -/
def kMVKMTLFmtCapsNone : Nat := 0

/-- The capability flag required when an attachment is referenced as an input
attachment. -/
def kMVKMTLFmtCapsRead : Nat := 1

/-- The capability flag required when an attachment is referenced as a color
attachment. -/
def kMVKMTLFmtCapsColorAtt : Nat := 2

/-- The capability flag required when an attachment is referenced as a resolve
target. -/
def kMVKMTLFmtCapsResolve : Nat := 4

/-- The capability flag required when an attachment is the depth/stencil
attachment. -/
def kMVKMTLFmtCapsDSAtt : Nat := 8

/-- `MVKRenderSubpass::getRequiredFormatCapabilitiesForAttachmentAt`: the
union of the capabilities required by every role in which the render-pass
attachment index appears in this subpass (the source's for-with-break loops
are `List.any`). -/
def getRequiredFormatCapabilitiesForAttachmentAt (sp : MVKRenderSubpass) (rpAttIdx : Nat) : Nat :=
  let caps := kMVKMTLFmtCapsNone
  let caps := if sp.inputAttachments.any (fun att => att.attachment == rpAttIdx) then
    caps ||| kMVKMTLFmtCapsRead else caps
  let caps := if sp.colorAttachments.any (fun att => att.attachment == rpAttIdx) then
    caps ||| kMVKMTLFmtCapsColorAtt else caps
  let caps := if sp.resolveAttachments.any (fun att => att.attachment == rpAttIdx) then
    caps ||| kMVKMTLFmtCapsResolve else caps
  let caps := if sp.depthStencilAttachment.attachment == rpAttIdx then
    caps ||| kMVKMTLFmtCapsDSAtt else caps
  if sp.depthStencilResolveAttachment.attachment == rpAttIdx then
    caps ||| kMVKMTLFmtCapsResolve else caps

/-- `a &= ~b` on `uint32_t` values, on `Nat`: clear from `a` the bits it
shares with `b` (`a ^^^ (a &&& b)` keeps exactly the bits of `a` not in `b`). -/
def andNot (a b : Nat) : Nat := a ^^^ (a &&& b)

/-- The first `std::for_each` pair of `validateFormat`'s multiview branch:
strip every already-recorded first-use bit from the incoming view mask, then
record what is left (a view cannot be first-used at two subpasses). -/
def updateFirstUseViewMasks (masks : List Nat) (viewMask : Nat) : List Nat :=
  masks ++ [masks.foldl andNot viewMask]

/-- The other `std::for_each` of `validateFormat`'s multiview branch: strip
the incoming view mask's bits from every recorded last-use entry, then record
the full mask (the latest user of a view wins). -/
def updateLastUseViewMasks (masks : List Nat) (viewMask : Nat) : List Nat :=
  masks.map (fun mask => andNot mask viewMask) ++ [viewMask]

/-- The lifecycle fields `MVKRenderPassAttachment::validateFormat` computes. -/
structure MVKAttachmentLifecycle where
  firstUseSubpassIdx : Nat
  lastUseSubpassIdx : Nat
  firstUseViewMasks : List Nat
  lastUseViewMasks : List Nat
deriving Repr, DecidableEq, Inhabited

/-- One iteration of `validateFormat`'s subpass loop: a subpass that requires
capabilities for this attachment updates the scalar first/last-use indices
and, when multiview, the first/last-use view-mask lists. -/
def lifecycleStep (attachmentIndex : Nat) (st : MVKAttachmentLifecycle)
    (sp : MVKRenderSubpass) : MVKAttachmentLifecycle :=
  if getRequiredFormatCapabilitiesForAttachmentAt sp attachmentIndex ≠ 0 then
    { firstUseSubpassIdx := min sp.subpassIndex st.firstUseSubpassIdx
      lastUseSubpassIdx := max sp.subpassIndex st.lastUseSubpassIdx
      firstUseViewMasks :=
        if sp.isMultiview then updateFirstUseViewMasks st.firstUseViewMasks sp.viewMask
        else st.firstUseViewMasks
      lastUseViewMasks :=
        if sp.isMultiview then updateLastUseViewMasks st.lastUseViewMasks sp.viewMask
        else st.lastUseViewMasks }
  else st

/-- The lifecycle portion of `MVKRenderPassAttachment::validateFormat`: one
pass over the owning render pass's (already built) subpasses. -/
def validateFormatLifecycle (subpasses : List MVKRenderSubpass) (attachmentIndex : Nat) :
    MVKAttachmentLifecycle :=
  subpasses.foldl (lifecycleStep attachmentIndex) ⟨kMVKUndefinedLargeUInt32, 0, [], []⟩

/-- `MVKRenderPassAttachment::isFirstUseOfAttachment`.  The unchecked vector
read `_firstUseViewMasks[subpass->_subpassIndex]` is modelled with `getD`. -/
def MVKRenderPassAttachment.isFirstUseOfAttachment (att : MVKRenderPassAttachment)
    (sp : MVKRenderSubpass) : Bool :=
  if sp.isMultiview then att.firstUseViewMasks.getD sp.subpassIndex 0 == sp.viewMask
  else att.firstUseSubpassIdx == sp.subpassIndex

/-- `MVKRenderPassAttachment::isLastUseOfAttachment`. -/
def MVKRenderPassAttachment.isLastUseOfAttachment (att : MVKRenderPassAttachment)
    (sp : MVKRenderSubpass) : Bool :=
  if sp.isMultiview then att.lastUseViewMasks.getD sp.subpassIndex 0 == sp.viewMask
  else att.lastUseSubpassIdx == sp.subpassIndex

/-- `MVKRenderPassAttachment::shouldClearAttachment`: don't clear unless this
subpass is a first use of the attachment; then clear iff the declared load-op
(stencil load-op when `isStencil`) is Clear. -/
def MVKRenderPassAttachment.shouldClearAttachment (att : MVKRenderPassAttachment)
    (sp : MVKRenderSubpass) (isStencil : Bool) : Bool :=
  if sp.isMultiview then
    if att.firstUseViewMasks.getD sp.subpassIndex 0 = 0 then false
    else (if isStencil then att.stencilLoadOp else att.loadOp) == VkAttachmentLoadOp.Clear
  else
    if sp.subpassIndex ≠ att.firstUseSubpassIdx then false
    else (if isStencil then att.stencilLoadOp else att.loadOp) == VkAttachmentLoadOp.Clear

/-- Modelled from the spec: `mvkMTLStoreActionFromVkAttachmentStoreOp` lives
in `mvk_datatypes.cpp`, which is not among the embedded sources.  The spec
describes it as "the declared store-op (Store/DontCare), composed with resolve
if present and capable". -/
def mvkMTLStoreActionFromVkAttachmentStoreOp (storeOp : VkAttachmentStoreOp)
    (hasResolveAttachment canResolveFormat : Bool) : MTLStoreAction :=
  match storeOp with
  | .Store =>
    if hasResolveAttachment && canResolveFormat then .StoreAndMultisampleResolve else .Store
  | .DontCare =>
    if hasResolveAttachment && canResolveFormat then .MultisampleResolve else .DontCare

/-- `MVKRenderPassAttachment::getMTLStoreAction`.  `feats` carries the device
features the source reads through `_renderPass->getDevice()`. -/
def MVKRenderPassAttachment.getMTLStoreAction (att : MVKRenderPassAttachment)
    (feats : MVKMetalFeatures) (sp : MVKRenderSubpass)
    (isRenderingEntireAttachment isMemorylessAttachment hasResolveAttachment
     canResolveFormat isStencil storeOverride : Bool) : MTLStoreAction :=
  if hasResolveAttachment && canResolveFormat && !feats.combinedStoreResolveAction then
    .MultisampleResolve
  else if isMemorylessAttachment then
    if hasResolveAttachment then .MultisampleResolve else .DontCare
  else if storeOverride || !isRenderingEntireAttachment || !att.isLastUseOfAttachment sp then
    if hasResolveAttachment && canResolveFormat then .StoreAndMultisampleResolve else .Store
  else
    mvkMTLStoreActionFromVkAttachmentStoreOp
      (if isStencil then att.stencilStoreOp else att.storeOp)
      hasResolveAttachment canResolveFormat

/-- Modelled from the spec: `mvkMTLLoadActionFromVkAttachmentLoadOp` lives in
`mvk_datatypes.cpp`, which is not among the embedded sources.  The spec says
the declared load-op (Load/Clear/DontCare) "is honored", i.e. mapped to the
native action of the same name. -/
def mvkMTLLoadActionFromVkAttachmentLoadOp : VkAttachmentLoadOp → MTLLoadAction
  | .Load => .Load
  | .Clear => .Clear
  | .DontCare => .DontCare

/-- What `populateMTLRenderPassAttachmentDescriptor` writes into the Metal
attachment descriptor, plus its boolean return value. -/
structure MTLAttachmentSetup where
  loadAction : MTLLoadAction
  storeAction : MTLStoreAction
  didClear : Bool
deriving Repr, DecidableEq, Inhabited

/-- `MVKRenderPassAttachment::populateMTLRenderPassAttachmentDescriptor`.
`isMemorylessAttachment` (computed in the source from the texture's storage
mode on Apple Silicon) and `isDepthFormat`/`isStencilFormat` (looked up from
the external pixel-format service for the attachment view's format) enter as
booleans.  The source passes `storeOverride = false` to
`getMTLStoreAction` here. -/
def MVKRenderPassAttachment.populateMTLRenderPassAttachmentDescriptor
    (att : MVKRenderPassAttachment) (feats : MVKMetalFeatures) (sp : MVKRenderSubpass)
    (isRenderingEntireAttachment isMemorylessAttachment hasResolveAttachment
     canResolveFormat isStencil loadOverride : Bool)
    (isDepthFormat isStencilFormat : Bool) : MTLAttachmentSetup :=
  let mtlLA :=
    if loadOverride || !isRenderingEntireAttachment || !att.isFirstUseOfAttachment sp then
      MTLLoadAction.Load
    else
      mvkMTLLoadActionFromVkAttachmentLoadOp (if isStencil then att.stencilLoadOp else att.loadOp)
  let mtlLA := if isMemorylessAttachment && mtlLA == MTLLoadAction.Load then
    MTLLoadAction.DontCare else mtlLA
  let storeAction :=
    if feats.deferredStoreActions then MTLStoreAction.Unknown
    else if isStencilFormat && !isStencil && !isDepthFormat then MTLStoreAction.DontCare
    else att.getMTLStoreAction feats sp isRenderingEntireAttachment isMemorylessAttachment
      hasResolveAttachment canResolveFormat isStencil false
  ⟨mtlLA, storeAction, mtlLA == MTLLoadAction.Clear⟩

/-- The load action as the specification's claim describes it (a refinement
reference, written from the claim's words rather than from the source): Load
whenever the override is set, the region rendered is not the entire attachment,
or the subpass is not the first use of the attachment; otherwise the declared
load-op (stencil load-op when `isStencil`) mapped to the native action; for a
memoryless attachment a resulting Load is degraded to DontCare while Clear is
preserved. -/
def specLoadAction (att : MVKRenderPassAttachment) (sp : MVKRenderSubpass)
    (isRenderingEntireAttachment isMemorylessAttachment isStencil loadOverride : Bool) :
    MTLLoadAction :=
  let chosen :=
    if loadOverride || !isRenderingEntireAttachment || !att.isFirstUseOfAttachment sp then
      MTLLoadAction.Load
    else
      mvkMTLLoadActionFromVkAttachmentLoadOp (if isStencil then att.stencilLoadOp else att.loadOp)
  if isMemorylessAttachment then
    match chosen with
    | MTLLoadAction.Load => MTLLoadAction.DontCare
    | other => other
  else chosen

/-- The view masks of the subpasses that reference (require capabilities for)
the given attachment, in subpass order: the sequence `validateFormat`'s
multiview branch processes. -/
def referencingViewMasks (subpasses : List MVKRenderSubpass) (attIdx : Nat) : List Nat :=
  (subpasses.filter (fun sp =>
    getRequiredFormatCapabilitiesForAttachmentAt sp attIdx != 0)).map
      MVKRenderSubpass.viewMask

/-- A concrete multiview subpass: subpass 0 renders view 0 only (`viewMask`
0b01) and uses color attachment 0. -/
def demoSubpass0 : MVKRenderSubpass where
  subpassIndex := 0
  viewMask := 1
  inputAttachments := []
  colorAttachments := [⟨0⟩]
  resolveAttachments := []
  depthStencilAttachment := ⟨VK_ATTACHMENT_UNUSED⟩
  depthStencilResolveAttachment := ⟨VK_ATTACHMENT_UNUSED⟩

/-- A concrete multiview subpass: subpass 1 renders views 0 and 1 (`viewMask`
0b11) and uses color attachment 0 again. -/
def demoSubpass1 : MVKRenderSubpass where
  subpassIndex := 1
  viewMask := 3
  inputAttachments := []
  colorAttachments := [⟨0⟩]
  resolveAttachments := []
  depthStencilAttachment := ⟨VK_ATTACHMENT_UNUSED⟩
  depthStencilResolveAttachment := ⟨VK_ATTACHMENT_UNUSED⟩

/-- The attachment state produced by constructing the two-subpass multiview
render pass `[demoSubpass0, demoSubpass1]` for color attachment 0, declared
with load-op Clear: its cached lifecycle is exactly what
`validateFormatLifecycle` computes (`firstUseViewMasks = [0b01, 0b10]`,
`lastUseViewMasks = [0, 0b11]`). -/
def demoAttachment : MVKRenderPassAttachment where
  format := 44
  loadOp := VkAttachmentLoadOp.Clear
  storeOp := VkAttachmentStoreOp.Store
  stencilLoadOp := VkAttachmentLoadOp.DontCare
  stencilStoreOp := VkAttachmentStoreOp.DontCare
  firstUseSubpassIdx := (validateFormatLifecycle [demoSubpass0, demoSubpass1] 0).firstUseSubpassIdx
  lastUseSubpassIdx := (validateFormatLifecycle [demoSubpass0, demoSubpass1] 0).lastUseSubpassIdx
  firstUseViewMasks := (validateFormatLifecycle [demoSubpass0, demoSubpass1] 0).firstUseViewMasks
  lastUseViewMasks := (validateFormatLifecycle [demoSubpass0, demoSubpass1] 0).lastUseViewMasks

/-- A concrete non-multiview subpass (subpass 0, view mask 0) using color
attachment 0. -/
def demoSubpassNM : MVKRenderSubpass where
  subpassIndex := 0
  viewMask := 0
  inputAttachments := []
  colorAttachments := [⟨0⟩]
  resolveAttachments := []
  depthStencilAttachment := ⟨VK_ATTACHMENT_UNUSED⟩
  depthStencilResolveAttachment := ⟨VK_ATTACHMENT_UNUSED⟩

/-- A non-multiview attachment state whose last use is subpass 5, with both
store-ops declared DontCare. -/
def demoAttachmentDC : MVKRenderPassAttachment where
  format := 44
  loadOp := VkAttachmentLoadOp.DontCare
  storeOp := VkAttachmentStoreOp.DontCare
  stencilLoadOp := VkAttachmentLoadOp.DontCare
  stencilStoreOp := VkAttachmentStoreOp.DontCare
  firstUseSubpassIdx := 0
  lastUseSubpassIdx := 5
  firstUseViewMasks := []
  lastUseViewMasks := []

/-- Device features: no combined store-resolve action, no deferred store
actions. -/
def demoFeats : MVKMetalFeatures where
  combinedStoreResolveAction := false
  deferredStoreActions := false

/-- A non-multiview subpass whose only color reference is the unused
sentinel, and which lists attachment 0 as an input attachment. -/
def demoSubpassUnused : MVKRenderSubpass where
  subpassIndex := 0
  viewMask := 0
  inputAttachments := [⟨0⟩]
  colorAttachments := [⟨VK_ATTACHMENT_UNUSED⟩]
  resolveAttachments := []
  depthStencilAttachment := ⟨VK_ATTACHMENT_UNUSED⟩
  depthStencilResolveAttachment := ⟨VK_ATTACHMENT_UNUSED⟩

/-! ### Lemmas about the view-mask partitioner -/

theorem popcount_unfold (x : Nat) : popcount x = x % 2 + popcount (x / 2) := by
  by_cases h : x = 0
  · subst h
    rw [popcount]
    simp
  · rw [popcount, if_neg h]

theorem popcount_pos {m : Nat} (h : m ≠ 0) : 0 < popcount m := by
  induction m using Nat.strong_induction_on with
  | _ m ih =>
    rw [popcount_unfold]
    by_cases h2 : m % 2 = 1
    · omega
    · have hm2 : m / 2 ≠ 0 := by omega
      have := ih (m / 2) (Nat.div_lt_self (Nat.pos_of_ne_zero h) (by decide)) hm2
      omega

theorem popcount_sub_pow {e m : Nat} (h : m.testBit e = true) :
    popcount (m - 2 ^ e) + 1 = popcount m := by
  induction e generalizing m with
  | zero =>
    have h1 : m % 2 = 1 := by simpa using h
    have h2 : (m - 1) % 2 = 0 := by omega
    have h3 : (m - 1) / 2 = m / 2 := by omega
    simp only [pow_zero]
    rw [popcount_unfold (m - 1), popcount_unfold m, h3]
    omega
  | succ e ih =>
    have h' : (m / 2).testBit e = true := by rwa [Nat.testBit_add_one] at h
    have hge : 2 ^ e ≤ m / 2 := Nat.testBit_implies_ge h'
    have hics := ih h'
    have hpos : 0 < 2 ^ e := Nat.pos_pow_of_pos _ (by decide)
    have hpow : (2 : Nat) ^ (e + 1) = 2 ^ e * 2 := by rw [pow_succ]
    have hmod : (m - 2 ^ (e + 1)) % 2 = m % 2 := by omega
    have hdiv : (m - 2 ^ (e + 1)) / 2 = m / 2 - 2 ^ e := by omega
    rw [popcount_unfold (m - 2 ^ (e + 1)), popcount_unfold m, hmod, hdiv]
    omega

theorem clumpLoop_popcount (m : Nat) : ∀ e g,
    popcount (clumpLoop m e g).1 + ((clumpLoop m e g).2.1 - e) = popcount m ∧
    e ≤ (clumpLoop m e g).2.1 := by
  induction m using Nat.strong_induction_on with
  | _ m ih =>
    intro e g
    rw [clumpLoop]
    split
    · next hbit =>
      have hge : 2 ^ e ≤ m := Nat.testBit_implies_ge hbit
      have hpos : 0 < 2 ^ e := Nat.pos_pow_of_pos _ (by decide)
      have hlt : m - 2 ^ e < m := Nat.sub_lt (Nat.lt_of_lt_of_le hpos hge) hpos
      have hrec := ih (m - 2 ^ e) hlt (e + 1) (g ||| 2 ^ e)
      have hpc := popcount_sub_pow hbit
      omega
    · simp

theorem getNextViewMaskGroup_viewCount_popcount (m : Nat) :
    (getNextViewMaskGroup m).viewCount + popcount (getNextViewMaskGroup m).remainder =
    popcount m := by
  have h := clumpLoop_popcount m (ctz m) 0
  show (clumpLoop m (ctz m) 0).2.1 - ctz m + popcount (clumpLoop m (ctz m) 0).1 = popcount m
  omega

theorem countClumps_of_ne_zero {m : Nat} (h : m ≠ 0) :
    countClumps m = countClumps (getNextViewMaskGroup m).remainder + 1 := by
  rw [countClumps, dif_neg h]

theorem upToLoop_countClumps {m : Nat} (h : m ≠ 0) :
    upToLoop m (countClumps m - 1) = popcount m := by
  induction m using Nat.strong_induction_on with
  | _ m ih =>
    have hsum := getNextViewMaskGroup_viewCount_popcount m
    by_cases hrem : (getNextViewMaskGroup m).remainder = 0
    · have hc : countClumps m = 1 := by
        rw [countClumps_of_ne_zero h, hrem, countClumps]
        simp
      rw [hc]
      show upToLoop m 0 = popcount m
      rw [upToLoop]
      rw [hrem] at hsum
      rw [popcount] at hsum
      simpa using hsum
    · have hlt := getNextViewMaskGroup_remainder_lt h
      have hcr : 0 < countClumps (getNextViewMaskGroup m).remainder := by
        rw [countClumps_of_ne_zero hrem]
        omega
      have hc : countClumps m - 1 = (countClumps (getNextViewMaskGroup m).remainder - 1) + 1 := by
        rw [countClumps_of_ne_zero h]
        omega
      rw [hc]
      show (getNextViewMaskGroup m).viewCount +
        upToLoop (getNextViewMaskGroup m).remainder
          (countClumps (getNextViewMaskGroup m).remainder - 1) = popcount m
      rw [ih _ hlt hrem]
      exact hsum

/-! ### Lemmas about the attachment lifecycle computation -/

theorem all_iff_getD (l : List Nat) (p : Nat → Bool) :
    l.all p = true ↔ ∀ k, k < l.length → p (l.getD k 0) = true := by
  rw [List.all_eq_true]
  constructor
  · intro h k hk
    have hg : l.getD k 0 = l[k] := by
      simp [List.getD_eq_getElem?_getD, List.getElem?_eq_getElem hk]
    rw [hg]
    exact h _ (List.getElem_mem hk)
  · intro h x hx
    obtain ⟨k, hk, rfl⟩ := List.mem_iff_getElem.mp hx
    have hg : l.getD k 0 = l[k] := by
      simp [List.getD_eq_getElem?_getD, List.getElem?_eq_getElem hk]
    rw [← hg]
    exact h k hk

theorem andNot_testBit (a b v : Nat) :
    (andNot a b).testBit v = (a.testBit v && !b.testBit v) := by
  simp only [andNot, Nat.testBit_xor, Nat.testBit_and]
  cases a.testBit v <;> cases b.testBit v <;> rfl

theorem foldl_andNot_testBit (masks : List Nat) : ∀ (vm v : Nat),
    (masks.foldl andNot vm).testBit v = (vm.testBit v && masks.all (fun m => !m.testBit v)) := by
  induction masks with
  | nil => intro vm v; simp
  | cons m ms ih =>
    intro vm v
    simp only [List.foldl_cons, List.all_cons, ih, andNot_testBit]
    cases vm.testBit v <;> cases m.testBit v <;> simp

theorem firstUseFold_length (vms : List Nat) : ∀ init : List Nat,
    (List.foldl updateFirstUseViewMasks init vms).length = init.length + vms.length := by
  induction vms with
  | nil => intro init; simp
  | cons a l ih =>
    intro init
    simp only [List.foldl_cons, ih, updateFirstUseViewMasks, List.length_append,
      List.length_cons, List.length_nil, List.length]
    omega

theorem lastUseFold_length (vms : List Nat) : ∀ init : List Nat,
    (List.foldl updateLastUseViewMasks init vms).length = init.length + vms.length := by
  induction vms with
  | nil => intro init; simp
  | cons a l ih =>
    intro init
    simp only [List.foldl_cons, ih, updateLastUseViewMasks, List.length_append,
      List.length_map, List.length_cons, List.length_nil, List.length]
    omega

theorem firstUseFold_all_testBit (vms : List Nat) (v : Nat) :
    (List.foldl updateFirstUseViewMasks [] vms).all (fun m => !m.testBit v) =
      vms.all (fun m => !m.testBit v) := by
  induction vms using List.reverseRecOn with
  | nil => simp
  | append_singleton l a ih =>
    rw [List.foldl_append]
    simp only [List.foldl_cons, List.foldl_nil, updateFirstUseViewMasks]
    rw [List.all_append, List.all_append, ih]
    simp only [List.all_cons, List.all_nil, foldl_andNot_testBit, ih]
    cases l.all (fun m => !m.testBit v) <;> cases a.testBit v <;> rfl

theorem firstUseFold_getD_testBit (vms : List Nat) :
    ∀ i, i < vms.length → ∀ v : Nat,
      (((List.foldl updateFirstUseViewMasks [] vms).getD i 0).testBit v = true ↔
        ((vms.getD i 0).testBit v = true ∧
          ∀ k, k < i → (vms.getD k 0).testBit v = false)) := by
  induction vms using List.reverseRecOn with
  | nil => intro i hi; simp at hi
  | append_singleton l a ih =>
    intro i hi v
    have hFlen : (List.foldl updateFirstUseViewMasks [] l).length = l.length := by
      simpa using firstUseFold_length l []
    rw [List.foldl_append]
    simp only [List.foldl_cons, List.foldl_nil, updateFirstUseViewMasks]
    by_cases hil : i < l.length
    · rw [List.getD_append _ _ _ _ (by omega), List.getD_append _ _ _ _ hil]
      rw [ih i hil v]
      constructor
      · rintro ⟨h1, h2⟩
        refine ⟨h1, fun k hk => ?_⟩
        rw [List.getD_append _ _ _ _ (by omega)]
        exact h2 k hk
      · rintro ⟨h1, h2⟩
        refine ⟨h1, fun k hk => ?_⟩
        have := h2 k hk
        rwa [List.getD_append _ _ _ _ (by omega)] at this
    · have hieq : i = l.length := by
        simp only [List.length_append, List.length_cons, List.length_nil] at hi
        omega
      subst hieq
      rw [show (List.foldl updateFirstUseViewMasks [] l ++
          [(List.foldl updateFirstUseViewMasks [] l).foldl andNot a]).getD l.length 0 =
          (List.foldl updateFirstUseViewMasks [] l).foldl andNot a from by
        conv_lhs => rw [← hFlen]
        simp [List.getD_eq_getElem?_getD, List.getElem?_append_right]]
      rw [show (l ++ [a]).getD l.length 0 = a from by
        simp [List.getD_eq_getElem?_getD, List.getElem?_append_right]]
      rw [foldl_andNot_testBit, firstUseFold_all_testBit]
      rw [Bool.and_eq_true]
      constructor
      · rintro ⟨h1, h2⟩
        refine ⟨h1, fun k hk => ?_⟩
        rw [List.getD_append _ _ _ _ hk]
        have := (all_iff_getD l _).mp h2 k hk
        simpa using this
      · rintro ⟨h1, h2⟩
        refine ⟨h1, (all_iff_getD l _).mpr fun k hk => ?_⟩
        have := h2 k hk
        rw [List.getD_append _ _ _ _ hk] at this
        simpa using this

theorem lastUseFold_getD_testBit (vms : List Nat) :
    ∀ i, i < vms.length → ∀ v : Nat,
      (((List.foldl updateLastUseViewMasks [] vms).getD i 0).testBit v = true ↔
        ((vms.getD i 0).testBit v = true ∧
          ∀ k, i < k → k < vms.length → (vms.getD k 0).testBit v = false)) := by
  induction vms using List.reverseRecOn with
  | nil => intro i hi; simp at hi
  | append_singleton l a ih =>
    intro i hi v
    have hGlen : (List.foldl updateLastUseViewMasks [] l).length = l.length := by
      simpa using lastUseFold_length l []
    rw [List.foldl_append]
    simp only [List.foldl_cons, List.foldl_nil, updateLastUseViewMasks]
    by_cases hil : i < l.length
    · rw [show ((List.foldl updateLastUseViewMasks [] l).map (fun mask => andNot mask a) ++
          [a]).getD i 0 = andNot ((List.foldl updateLastUseViewMasks [] l).getD i 0) a from by
        rw [List.getD_append _ _ _ _ (by simp; omega)]
        have hil' : i < (List.foldl updateLastUseViewMasks [] l).length := by omega
        simp [List.getD_eq_getElem?_getD, List.getElem?_map, List.getElem?_eq_getElem hil']]
      rw [List.getD_append _ _ _ _ hil, andNot_testBit, Bool.and_eq_true]
      rw [ih i hil v]
      simp only [List.length_append, List.length_cons, List.length_nil]
      constructor
      · rintro ⟨⟨h1, h2⟩, h3⟩
        refine ⟨h1, fun k hik hk => ?_⟩
        by_cases hkl : k < l.length
        · rw [List.getD_append _ _ _ _ hkl]
          exact h2 k hik hkl
        · have : k = l.length := by omega
          subst this
          rw [show (l ++ [a]).getD l.length 0 = a from by
            simp [List.getD_eq_getElem?_getD, List.getElem?_append_right]]
          simpa using h3
      · rintro ⟨h1, h2⟩
        refine ⟨⟨h1, fun k hik hkl => ?_⟩, ?_⟩
        · have := h2 k hik (by omega)
          rwa [List.getD_append _ _ _ _ hkl] at this
        · have := h2 l.length (by omega) (by omega)
          rw [show (l ++ [a]).getD l.length 0 = a from by
            simp [List.getD_eq_getElem?_getD, List.getElem?_append_right]] at this
          simp [this]
    · have hieq : i = l.length := by
        simp only [List.length_append, List.length_cons, List.length_nil] at hi
        omega
      subst hieq
      rw [show ((List.foldl updateLastUseViewMasks [] l).map (fun mask => andNot mask a) ++
          [a]).getD l.length 0 = a from by
        conv_lhs => rw [show l.length = ((List.foldl updateLastUseViewMasks [] l).map
          (fun mask => andNot mask a)).length from by simp [hGlen]]
        simp [List.getD_eq_getElem?_getD, List.getElem?_append_right]]
      rw [show (l ++ [a]).getD l.length 0 = a from by
        simp [List.getD_eq_getElem?_getD, List.getElem?_append_right]]
      simp only [List.length_append, List.length_cons, List.length_nil]
      constructor
      · intro h1
        exact ⟨h1, fun k hik hk => by omega⟩
      · rintro ⟨h1, _⟩
        exact h1

theorem validateFormat_foldl_viewMasks (attIdx : Nat) (l : List MVKRenderSubpass) :
    ∀ st : MVKAttachmentLifecycle, (∀ sp ∈ l, sp.viewMask ≠ 0) →
      (List.foldl (lifecycleStep attIdx) st l).firstUseViewMasks =
        List.foldl updateFirstUseViewMasks st.firstUseViewMasks
          ((l.filter (fun sp =>
            getRequiredFormatCapabilitiesForAttachmentAt sp attIdx != 0)).map
              MVKRenderSubpass.viewMask) ∧
      (List.foldl (lifecycleStep attIdx) st l).lastUseViewMasks =
        List.foldl updateLastUseViewMasks st.lastUseViewMasks
          ((l.filter (fun sp =>
            getRequiredFormatCapabilitiesForAttachmentAt sp attIdx != 0)).map
              MVKRenderSubpass.viewMask) := by
  induction l with
  | nil => intro st hmv; simp
  | cons sp l ih =>
    intro st hmv
    have hmv' : ∀ x ∈ l, x.viewMask ≠ 0 := fun x hx => hmv x (List.mem_cons_of_mem _ hx)
    have hsp : sp.viewMask ≠ 0 := hmv sp (List.mem_cons_self _ _)
    have hmulti : sp.isMultiview = true := by
      simp [MVKRenderSubpass.isMultiview, hsp]
    simp only [List.foldl_cons]
    by_cases hreq : getRequiredFormatCapabilitiesForAttachmentAt sp attIdx ≠ 0
    · have hfil : (sp :: l).filter (fun sp =>
          getRequiredFormatCapabilitiesForAttachmentAt sp attIdx != 0) =
          sp :: l.filter (fun sp =>
            getRequiredFormatCapabilitiesForAttachmentAt sp attIdx != 0) := by
        simp [List.filter_cons, hreq]
      rw [hfil]
      simp only [List.map_cons, List.foldl_cons]
      have hstep : lifecycleStep attIdx st sp =
          { firstUseSubpassIdx := min sp.subpassIndex st.firstUseSubpassIdx
            lastUseSubpassIdx := max sp.subpassIndex st.lastUseSubpassIdx
            firstUseViewMasks := updateFirstUseViewMasks st.firstUseViewMasks sp.viewMask
            lastUseViewMasks := updateLastUseViewMasks st.lastUseViewMasks sp.viewMask } := by
        rw [lifecycleStep, if_pos hreq, hmulti]
        simp
      rw [hstep]
      exact ih _ hmv'
    · have hfil : (sp :: l).filter (fun sp =>
          getRequiredFormatCapabilitiesForAttachmentAt sp attIdx != 0) =
          l.filter (fun sp =>
            getRequiredFormatCapabilitiesForAttachmentAt sp attIdx != 0) := by
        simp only [ne_eq, Decidable.not_not] at hreq
        simp [List.filter_cons, hreq]
      rw [hfil]
      have hstep : lifecycleStep attIdx st sp = st := by
        rw [lifecycleStep, if_neg hreq]
      rw [hstep]
      exact ih _ hmv'

theorem disjoint_of_earliest {L vms : List Nat}
    (char : ∀ i, i < vms.length → ∀ v : Nat, ((L.getD i 0).testBit v = true ↔
      ((vms.getD i 0).testBit v = true ∧ ∀ k, k < i → (vms.getD k 0).testBit v = false)))
    {i j : Nat} (hi : i < vms.length) (hj : j < vms.length) (hij : i ≠ j) :
    L.getD i 0 &&& L.getD j 0 = 0 := by
  apply Nat.eq_of_testBit_eq
  intro v
  rw [Nat.testBit_and, Nat.zero_testBit]
  cases hbi : (L.getD i 0).testBit v with
  | false => rfl
  | true =>
    cases hbj : (L.getD j 0).testBit v with
    | false => rfl
    | true =>
      obtain ⟨hvi, hfi⟩ := (char i hi v).mp hbi
      obtain ⟨hvj, hfj⟩ := (char j hj v).mp hbj
      rcases Nat.lt_or_ge i j with h | h
      · rw [hfj i h] at hvi
        exact absurd hvi (by simp)
      · have hji : j < i := by omega
        rw [hfi j hji] at hvj
        exact absurd hvj (by simp)

theorem disjoint_of_latest {L vms : List Nat}
    (char : ∀ i, i < vms.length → ∀ v : Nat, ((L.getD i 0).testBit v = true ↔
      ((vms.getD i 0).testBit v = true ∧
        ∀ k, i < k → k < vms.length → (vms.getD k 0).testBit v = false)))
    {i j : Nat} (hi : i < vms.length) (hj : j < vms.length) (hij : i ≠ j) :
    L.getD i 0 &&& L.getD j 0 = 0 := by
  apply Nat.eq_of_testBit_eq
  intro v
  rw [Nat.testBit_and, Nat.zero_testBit]
  cases hbi : (L.getD i 0).testBit v with
  | false => rfl
  | true =>
    cases hbj : (L.getD j 0).testBit v with
    | false => rfl
    | true =>
      obtain ⟨hvi, hfi⟩ := (char i hi v).mp hbi
      obtain ⟨hvj, hfj⟩ := (char j hj v).mp hbj
      rcases Nat.lt_or_ge i j with h | h
      · rw [hfi j h hj] at hvj
        exact absurd hvj (by simp)
      · have hji : j < i := by omega
        rw [hfj i hji hi] at hvi
        exact absurd hvi (by simp)

/-! ### Claim theorems -/

/-- C10: for a subpass whose view mask is zero (non-multiview),
`getViewMaskGroupForMetalPass`, `getFirstViewIndexInMetalPass`,
`getViewCountInMetalPass` and `getViewCountUpToMetalPass` each return 0 for
every pass index and in both partition modes, short-circuiting before any
partition logic runs. -/
theorem multiview_queries_zero_mask (inst : Bool) (passIdx : Nat) :
    getViewMaskGroupForMetalPass inst 0 passIdx = 0 ∧
    getFirstViewIndexInMetalPass inst 0 passIdx = 0 ∧
    getViewCountInMetalPass inst 0 passIdx = 0 ∧
    getViewCountUpToMetalPass inst 0 passIdx = 0 :=
  ⟨rfl, rfl, rfl, rfl⟩

/-- C8: for every non-zero view mask and in both partition modes, the
cumulative view count up to the last Metal pass equals the population count
of the view mask. -/
theorem getViewCountUpToMetalPass_total_popcount (inst : Bool) (viewMask : Nat)
    (h : viewMask ≠ 0) :
    getViewCountUpToMetalPass inst viewMask (getMultiviewMetalPassCount inst viewMask - 1) =
      popcount viewMask := by
  unfold getViewCountUpToMetalPass getMultiviewMetalPassCount
  rw [if_neg h, if_neg h]
  cases inst
  · simp only [Bool.not_false, if_true]
    have := popcount_pos h
    omega
  · simp only [Bool.not_true, Bool.false_eq_true, if_false]
    exact upToLoop_countClumps h

/-- Witness for C8 at the concrete view mask `0b1011` in instancing mode. -/
theorem getViewCountUpToMetalPass_total_popcount_witness :
    (11 : Nat) ≠ 0 ∧
    getViewCountUpToMetalPass true 11 (getMultiviewMetalPassCount true 11 - 1) = popcount 11 :=
  ⟨by decide, getViewCountUpToMetalPass_total_popcount true 11 (by decide)⟩

/-- C9: the color-attachment accessors return their safe defaults
(`VK_FORMAT_UNDEFINED`, `false`, `false`) for every color index that is out of
the color-attachment list's range or whose reference carries the unused
sentinel. -/
theorem colorAttachment_accessors_safe_defaults (attachments : List MVKRenderPassAttachment)
    (sp : MVKRenderSubpass) (colorAttIdx : Nat)
    (h : sp.colorAttachments.length ≤ colorAttIdx ∨
      (sp.colorAttachments.getD colorAttIdx default).attachment = VK_ATTACHMENT_UNUSED) :
    getColorAttachmentFormat attachments sp colorAttIdx = VK_FORMAT_UNDEFINED ∧
    isColorAttachmentUsed sp colorAttIdx = false ∧
    isColorAttachmentAlsoInputAttachment sp colorAttIdx = false := by
  unfold getColorAttachmentFormat isColorAttachmentUsed isColorAttachmentAlsoInputAttachment
  by_cases hlen : colorAttIdx < sp.colorAttachments.length
  · have hun : (sp.colorAttachments.getD colorAttIdx default).attachment =
        VK_ATTACHMENT_UNUSED := by
      rcases h with h | h
      · omega
      · exact h
    refine ⟨?_, ?_, ?_⟩
    · rw [if_pos hlen]
      simp only [hun]
      exact if_pos trivial
    · rw [if_neg (by omega)]
      simp only [hun]
      simp
    · rw [if_neg (by omega)]
      simp only [hun]
      exact if_pos trivial
  · rw [if_neg hlen, if_pos (by omega), if_pos (by omega)]
    exact ⟨rfl, rfl, rfl⟩

/-- Witness for C9 at a concrete subpass whose only color reference is the
unused sentinel. -/
theorem colorAttachment_accessors_safe_defaults_witness :
    getColorAttachmentFormat [] demoSubpassUnused 0 = VK_FORMAT_UNDEFINED ∧
    isColorAttachmentUsed demoSubpassUnused 0 = false ∧
    isColorAttachmentAlsoInputAttachment demoSubpassUnused 0 = false :=
  colorAttachment_accessors_safe_defaults [] demoSubpassUnused 0 (Or.inr (by decide))

/-- C5: for a memoryless attachment, `getMTLStoreAction` yields DontCare when
no resolve target is present and MultisampleResolve when one is, regardless of
the declared store-op and of every other flag. -/
theorem getMTLStoreAction_memoryless (att : MVKRenderPassAttachment)
    (feats : MVKMetalFeatures) (sp : MVKRenderSubpass)
    (isRenderingEntireAttachment hasResolveAttachment canResolveFormat
     isStencil storeOverride : Bool) :
    att.getMTLStoreAction feats sp isRenderingEntireAttachment true hasResolveAttachment
      canResolveFormat isStencil storeOverride =
      (if hasResolveAttachment then MTLStoreAction.MultisampleResolve
       else MTLStoreAction.DontCare) := by
  cases hasResolveAttachment <;> cases canResolveFormat <;>
    cases hc : feats.combinedStoreResolveAction <;>
      simp [MVKRenderPassAttachment.getMTLStoreAction, hc]

/-- C1 (evaluation at the failing input): in unrolled mode (instancing
unavailable) the view mask `0b1011` is split into 3 Metal passes whose group
masks are all `0b10000` — not pairwise disjoint, and their union is not the
original mask.  (Bit 4 is not even enabled in the view mask.) -/
theorem viewMaskGroup_unrolled_partition_bug :
    getMultiviewMetalPassCount false 11 = 3 ∧
    getViewMaskGroupForMetalPass false 11 0 = 16 ∧
    getViewMaskGroupForMetalPass false 11 1 = 16 ∧
    getViewMaskGroupForMetalPass false 11 2 = 16 ∧
    getViewMaskGroupForMetalPass false 11 0 &&& getViewMaskGroupForMetalPass false 11 1 ≠ 0 ∧
    (getViewMaskGroupForMetalPass false 11 0 ||| getViewMaskGroupForMetalPass false 11 1 |||
      getViewMaskGroupForMetalPass false 11 2) ≠ 11 := by
  refine ⟨?_, ?_, ?_, ?_, ?_, ?_⟩ <;>
    simp +decide [getMultiviewMetalPassCount, popcount, getViewMaskGroupForMetalPass,
      getFirstViewIndexInMetalPass, firstViewLoop, skipLoop, getNextViewMaskGroup, ctz,
      clumpLoop, kMVKUint32Max]

/-- C2 (evaluation at the failing input): in unrolled mode with view mask
`0b1011`, the pass count is 3 and each pass has view count 1 as the claim
says, but `getFirstViewIndexInMetalPass` returns 4 for all three passes
(the claim says 0, 1, 3): the inner
`while (passIdx-- > 0 && viewCount-- > 0)` loop wraps the unsigned `passIdx`
around, so every later clump is consumed in full and the final `startView`
is one past the highest set bit. -/
theorem firstViewIndex_unrolled_values_bug :
    getMultiviewMetalPassCount false 11 = 3 ∧
    getViewCountInMetalPass false 11 0 = 1 ∧
    getViewCountInMetalPass false 11 1 = 1 ∧
    getViewCountInMetalPass false 11 2 = 1 ∧
    getFirstViewIndexInMetalPass false 11 0 = 4 ∧
    getFirstViewIndexInMetalPass false 11 1 = 4 ∧
    getFirstViewIndexInMetalPass false 11 2 = 4 := by
  refine ⟨?_, ?_, ?_, ?_, ?_, ?_, ?_⟩ <;>
    simp +decide [getMultiviewMetalPassCount, popcount, getViewCountInMetalPass,
      getFirstViewIndexInMetalPass, firstViewLoop, skipLoop, getNextViewMaskGroup, ctz,
      clumpLoop, kMVKUint32Max]

/-- C3 (counterexample): in the constructed two-subpass multiview render pass,
subpass 1 (view mask `0b11`) is not the exclusive first use of the attachment
(its cached first-use view mask is `0b10 ≠ 0b11`), yet `shouldClearAttachment`
reports true because the load-op is Clear and the subpass first-uses at least
one view. -/
theorem shouldClearAttachment_partial_first_use_cex :
    demoAttachment.shouldClearAttachment demoSubpass1 false = true ∧
    demoAttachment.isFirstUseOfAttachment demoSubpass1 = false ∧
    demoAttachment.loadOp = VkAttachmentLoadOp.Clear := by
  refine ⟨by decide, by decide, by decide⟩

/-- C3 (amended): `shouldClearAttachment` returns true iff the declared
load-op (stencil load-op when `isStencil`) is Clear and the subpass is a
first use of the attachment in the weaker sense the code checks: for a
non-multiview subpass, the subpass index equals the cached first-use subpass
index; for a multiview subpass, the cached first-use view mask at that
subpass is non-zero (the subpass introduces at least one view — not
necessarily all of its views). -/
theorem shouldClearAttachment_characterization (att : MVKRenderPassAttachment)
    (sp : MVKRenderSubpass) (isStencil : Bool) :
    (att.shouldClearAttachment sp isStencil = true ↔
      ((if sp.isMultiview then att.firstUseViewMasks.getD sp.subpassIndex 0 ≠ 0
        else sp.subpassIndex = att.firstUseSubpassIdx) ∧
       (if isStencil then att.stencilLoadOp else att.loadOp) = VkAttachmentLoadOp.Clear)) := by
  unfold MVKRenderPassAttachment.shouldClearAttachment
  cases hm : sp.isMultiview
  · simp only [Bool.false_eq_true, if_false]
    by_cases hidx : sp.subpassIndex ≠ att.firstUseSubpassIdx
    · simp [hidx]
    · simp only [ne_eq, Decidable.not_not] at hidx
      simp [hidx]
  · simp only [if_true]
    by_cases hmask : att.firstUseViewMasks.getD sp.subpassIndex 0 = 0
    · simp [hmask]
    · simp [hmask]

/-- C4 (counterexample): two persisting-claim failures at concrete inputs.
For a memoryless attachment with no resolve target, a subpass that is not the
last use (last use is subpass 5, the query is at subpass 0) still yields
DontCare; and for a non-memoryless attachment with a capable resolve target on
a device without the combined store-resolve primitive, the same not-last-use
subpass yields the pure MultisampleResolve action rather than Store or
StoreAndMultisampleResolve. -/
theorem getMTLStoreAction_not_last_use_cex :
    demoAttachmentDC.isLastUseOfAttachment demoSubpassNM = false ∧
    demoAttachmentDC.getMTLStoreAction demoFeats demoSubpassNM true true false false false false =
      MTLStoreAction.DontCare ∧
    demoAttachmentDC.getMTLStoreAction demoFeats demoSubpassNM true false true true false false =
      MTLStoreAction.MultisampleResolve := by
  refine ⟨by decide, by decide, by decide⟩

/-- C4 (amended): for a non-memoryless attachment, when no capable resolve
target bypasses the store decision on a device lacking the combined
store-resolve primitive, any subpass that is not the last use of the
attachment (likewise whenever the store override is set or the region rendered
is not the entire attachment) yields a persisting action — Store, or
StoreAndMultisampleResolve when a resolve target is present and
format-capable — and never DontCare, regardless of the declared store-op. -/
theorem getMTLStoreAction_persists_when_not_last_use (att : MVKRenderPassAttachment)
    (feats : MVKMetalFeatures) (sp : MVKRenderSubpass)
    (isRenderingEntireAttachment isMemorylessAttachment hasResolveAttachment
     canResolveFormat isStencil storeOverride : Bool)
    (hmem : isMemorylessAttachment = false)
    (hcombo : (hasResolveAttachment && canResolveFormat &&
      !feats.combinedStoreResolveAction) = false)
    (hpersist : storeOverride = true ∨ isRenderingEntireAttachment = false ∨
      att.isLastUseOfAttachment sp = false) :
    att.getMTLStoreAction feats sp isRenderingEntireAttachment isMemorylessAttachment
      hasResolveAttachment canResolveFormat isStencil storeOverride =
      (if hasResolveAttachment && canResolveFormat then
        MTLStoreAction.StoreAndMultisampleResolve else MTLStoreAction.Store) ∧
    att.getMTLStoreAction feats sp isRenderingEntireAttachment isMemorylessAttachment
      hasResolveAttachment canResolveFormat isStencil storeOverride ≠
      MTLStoreAction.DontCare := by
  subst hmem
  have hcond : (storeOverride || !isRenderingEntireAttachment ||
      !att.isLastUseOfAttachment sp) = true := by
    rcases hpersist with h | h | h <;> simp [h]
  unfold MVKRenderPassAttachment.getMTLStoreAction
  rw [hcombo, hcond]
  simp only [Bool.false_eq_true, if_false, if_true]
  cases hrc : hasResolveAttachment && canResolveFormat <;> simp

/-- Witness for C4 at a concrete input: subpass 0 is not the last use
(last use is subpass 5) and the region flag is false, no resolve target, so
the store action is Store even though the declared store-op is DontCare. -/
theorem getMTLStoreAction_persists_witness :
    demoAttachmentDC.getMTLStoreAction demoFeats demoSubpassNM false false false false false
      false =
      (if false && false then MTLStoreAction.StoreAndMultisampleResolve
       else MTLStoreAction.Store) ∧
    demoAttachmentDC.getMTLStoreAction demoFeats demoSubpassNM false false false false false
      false ≠ MTLStoreAction.DontCare :=
  getMTLStoreAction_persists_when_not_last_use demoAttachmentDC demoFeats demoSubpassNM
    false false false false false false rfl (by decide) (Or.inr (Or.inl rfl))

/-- C6: the load action written by `populateMTLRenderPassAttachmentDescriptor`
is exactly the one the specification describes (`specLoadAction`: Load on
override / partial region / non-first-use, otherwise the declared load-op
mapped to the native action, with a memoryless Load degraded to DontCare and
Clear preserved), and the function returns true exactly when the chosen load
action is Clear. -/
theorem populate_loadAction_characterization (att : MVKRenderPassAttachment)
    (feats : MVKMetalFeatures) (sp : MVKRenderSubpass)
    (isRenderingEntireAttachment isMemorylessAttachment hasResolveAttachment
     canResolveFormat isStencil loadOverride isDepthFormat isStencilFormat : Bool) :
    (att.populateMTLRenderPassAttachmentDescriptor feats sp isRenderingEntireAttachment
      isMemorylessAttachment hasResolveAttachment canResolveFormat isStencil loadOverride
      isDepthFormat isStencilFormat).loadAction =
      specLoadAction att sp isRenderingEntireAttachment isMemorylessAttachment isStencil
        loadOverride ∧
    ((att.populateMTLRenderPassAttachmentDescriptor feats sp isRenderingEntireAttachment
      isMemorylessAttachment hasResolveAttachment canResolveFormat isStencil loadOverride
      isDepthFormat isStencilFormat).didClear = true ↔
      (att.populateMTLRenderPassAttachmentDescriptor feats sp isRenderingEntireAttachment
        isMemorylessAttachment hasResolveAttachment canResolveFormat isStencil loadOverride
        isDepthFormat isStencilFormat).loadAction = MTLLoadAction.Clear) := by
  cases hf : att.isFirstUseOfAttachment sp <;>
    cases loadOverride <;> cases isRenderingEntireAttachment <;>
      cases isMemorylessAttachment <;> cases isStencil <;>
        cases hso : att.stencilLoadOp <;> cases hlo : att.loadOp <;>
          simp [MVKRenderPassAttachment.populateMTLRenderPassAttachmentDescriptor,
            specLoadAction, mvkMTLLoadActionFromVkAttachmentLoadOp, hf, hso, hlo]

/-- C7: after construction of a multiview render pass (every subpass has a
non-zero view mask), the per-subpass first-use view masks computed by
`validateFormat` are pairwise disjoint, and a view belongs to the entry of the
i-th referencing subpass exactly when that subpass enables the view and no
earlier referencing subpass does; symmetrically, the last-use view masks are
pairwise disjoint and assign each view to the latest referencing subpass that
enables it. -/
theorem validateFormat_viewMasks_partition (subpasses : List MVKRenderSubpass)
    (attIdx i j v : Nat)
    (hmv : ∀ sp ∈ subpasses, sp.viewMask ≠ 0)
    (hi : i < (referencingViewMasks subpasses attIdx).length)
    (hj : j < (referencingViewMasks subpasses attIdx).length)
    (hij : i ≠ j) :
    ((validateFormatLifecycle subpasses attIdx).firstUseViewMasks.getD i 0 &&&
      (validateFormatLifecycle subpasses attIdx).firstUseViewMasks.getD j 0 = 0) ∧
    (((validateFormatLifecycle subpasses attIdx).firstUseViewMasks.getD i 0).testBit v =
        true ↔
      (((referencingViewMasks subpasses attIdx).getD i 0).testBit v = true ∧
        ∀ k, k < i →
          ((referencingViewMasks subpasses attIdx).getD k 0).testBit v = false)) ∧
    ((validateFormatLifecycle subpasses attIdx).lastUseViewMasks.getD i 0 &&&
      (validateFormatLifecycle subpasses attIdx).lastUseViewMasks.getD j 0 = 0) ∧
    (((validateFormatLifecycle subpasses attIdx).lastUseViewMasks.getD i 0).testBit v =
        true ↔
      (((referencingViewMasks subpasses attIdx).getD i 0).testBit v = true ∧
        ∀ k, i < k → k < (referencingViewMasks subpasses attIdx).length →
          ((referencingViewMasks subpasses attIdx).getD k 0).testBit v = false)) := by
  have hrel := validateFormat_foldl_viewMasks attIdx subpasses
    ⟨kMVKUndefinedLargeUInt32, 0, [], []⟩ hmv
  have h1 : (validateFormatLifecycle subpasses attIdx).firstUseViewMasks =
      List.foldl updateFirstUseViewMasks [] (referencingViewMasks subpasses attIdx) :=
    hrel.1
  have h2 : (validateFormatLifecycle subpasses attIdx).lastUseViewMasks =
      List.foldl updateLastUseViewMasks [] (referencingViewMasks subpasses attIdx) :=
    hrel.2
  rw [h1, h2]
  exact ⟨disjoint_of_earliest (firstUseFold_getD_testBit _) hi hj hij,
    firstUseFold_getD_testBit _ i hi v,
    disjoint_of_latest (lastUseFold_getD_testBit _) hi hj hij,
    lastUseFold_getD_testBit _ i hi v⟩

/-- Witness for C7 on the concrete two-subpass multiview render pass
(`firstUseViewMasks = [0b01, 0b10]`, `lastUseViewMasks = [0, 0b11]`), at
entries 0 and 1 and view 0. -/
theorem validateFormat_viewMasks_partition_witness :
    ((validateFormatLifecycle [demoSubpass0, demoSubpass1] 0).firstUseViewMasks.getD 0 0 &&&
      (validateFormatLifecycle [demoSubpass0, demoSubpass1] 0).firstUseViewMasks.getD 1 0 =
        0) ∧
    (((validateFormatLifecycle [demoSubpass0, demoSubpass1] 0).firstUseViewMasks.getD 0
        0).testBit 0 = true ↔
      (((referencingViewMasks [demoSubpass0, demoSubpass1] 0).getD 0 0).testBit 0 = true ∧
        ∀ k, k < 0 →
          ((referencingViewMasks [demoSubpass0, demoSubpass1] 0).getD k 0).testBit 0 =
            false)) ∧
    ((validateFormatLifecycle [demoSubpass0, demoSubpass1] 0).lastUseViewMasks.getD 0 0 &&&
      (validateFormatLifecycle [demoSubpass0, demoSubpass1] 0).lastUseViewMasks.getD 1 0 =
        0) ∧
    (((validateFormatLifecycle [demoSubpass0, demoSubpass1] 0).lastUseViewMasks.getD 0
        0).testBit 0 = true ↔
      (((referencingViewMasks [demoSubpass0, demoSubpass1] 0).getD 0 0).testBit 0 = true ∧
        ∀ k, 0 < k → k < (referencingViewMasks [demoSubpass0, demoSubpass1] 0).length →
          ((referencingViewMasks [demoSubpass0, demoSubpass1] 0).getD k 0).testBit 0 =
            false)) :=
  validateFormat_viewMasks_partition [demoSubpass0, demoSubpass1] 0 0 1 0
    (by decide) (by decide) (by decide) (by decide)
